import Mathlib

/-!
Shallow embedding of the aggregation core of src/app.py (classes
EbayAggregator and EcommerceAggregator plus the main orchestration).
Machine floats of the source are modelled as rationals; Python
exceptions are modelled as Option (none = the statement raised);
external network calls are modelled as oracle arguments.
-/

/-- Case pairs of str.lower restricted to the alphabets the app uses
(ASCII Latin and Russian Cyrillic, matching the bilingual stop-word set);
every other character is left unchanged. -/
def lowerPairs : List (Char × Char) :=
  [('A', 'a'), ('B', 'b'), ('C', 'c'), ('D', 'd'), ('E', 'e'), ('F', 'f'),
   ('G', 'g'), ('H', 'h'), ('I', 'i'), ('J', 'j'), ('K', 'k'), ('L', 'l'),
   ('M', 'm'), ('N', 'n'), ('O', 'o'), ('P', 'p'), ('Q', 'q'), ('R', 'r'),
   ('S', 's'), ('T', 't'), ('U', 'u'), ('V', 'v'), ('W', 'w'), ('X', 'x'),
   ('Y', 'y'), ('Z', 'z'),
   ('А', 'а'), ('Б', 'б'), ('В', 'в'), ('Г', 'г'), ('Д', 'д'), ('Е', 'е'),
   ('Ж', 'ж'), ('З', 'з'), ('И', 'и'), ('Й', 'й'), ('К', 'к'), ('Л', 'л'),
   ('М', 'м'), ('Н', 'н'), ('О', 'о'), ('П', 'п'), ('Р', 'р'), ('С', 'с'),
   ('Т', 'т'), ('У', 'у'), ('Ф', 'ф'), ('Х', 'х'), ('Ц', 'ц'), ('Ч', 'ч'),
   ('Ш', 'ш'), ('Щ', 'щ'), ('Ъ', 'ъ'), ('Ы', 'ы'), ('Ь', 'ь'), ('Э', 'э'),
   ('Ю', 'ю'), ('Я', 'я'), ('Ё', 'ё')]

/-- Python str.lower on one character (restricted as in lowerPairs). -/
def pyLower (c : Char) : Char :=
  (((lowerPairs.find? (fun p => p.1 == c)).map (fun p => p.2)).getD c)

/-- Whitespace recognised by Python str.split() with no arguments
(restricted to the ASCII whitespace characters). -/
def isPySpace (c : Char) : Bool :=
  c == ' ' || c == '\t' || c == '\n' || c == '\r' || c == '\x0b' || c == '\x0c'

/-- Python str.split() with no arguments: split on runs of whitespace,
discarding empty pieces. -/
def pySplit : List Char → List (List Char)
  | [] => []
  | c :: cs =>
    if isPySpace c then pySplit cs
    else (c :: cs.takeWhile (fun x => !isPySpace x)) ::
         pySplit (cs.dropWhile (fun x => !isPySpace x))
termination_by l => l.length
decreasing_by
  all_goals simp_wf
  all_goals have h : (cs.dropWhile (fun x => !isPySpace x)).length ≤ cs.length :=
    (List.dropWhile_suffix (l := cs) (fun x => !isPySpace x)).sublist.length_le
  all_goals omega

/-- Python " ".join on a list of words. -/
def joinSp : List (List Char) → List Char
  | [] => []
  | [t] => t
  | t :: t2 :: ts => t ++ ' ' :: joinSp (t2 :: ts)

/-- self.stop_words of both aggregator classes (src/app.py line 20). -/
def stop_words : List String :=
  ["купить", "цена", "поиск", "лучший", "buy", "price", "cheap", "best", "find"]

/-- EbayAggregator._nlp_clean_query and EcommerceAggregator._nlp_clean_query
(src/app.py lines 49-52 and 244-248): lower-case, split on whitespace, drop
stop-word tokens, rejoin with single spaces. -/
def nlp_clean_query (query : String) : String :=
  String.mk (joinSp ((pySplit (query.data.map pyLower)).filter
    (fun w => !((stop_words.map String.data).contains w))))

/-- The rates dictionary returned by the exchange-rate endpoint,
modelled as an association list (Python dict keys are unique). -/
def RateTable := List (String × ℚ)

/-- Python: currency in self.rates / self.rates.get(currency). -/
def lookupRate (rates : RateTable) (currency : String) : Option ℚ :=
  (rates.find? (fun p => p.1 == currency)).map (fun p => p.2)

/-- EbayAggregator._convert_price and EcommerceAggregator._convert_price
(src/app.py lines 40-47 and 231-242).  target_currency models the
self.target_currency attribute (set to "USD" at construction).  The first
branch returns the price unchanged when the currency already matches; the
second covers Python: not self.rates or currency not in self.rates (an empty
table has no entry, so both are one lookup failure here); otherwise the code
runs price / rate, which raises ZeroDivisionError when the stored rate is
exactly 0 — modelled as none. -/
def convert_price (rates : RateTable) (target_currency : String)
    (price : ℚ) (currency : String) : Option ℚ :=
  if currency = target_currency then some price
  else
    match lookupRate rates currency with
    | none => some price
    | some rate => if rate = 0 then none else some (price / rate)

/-- A JSON scalar as the app sees it inside a price or shipping block:
either an already-numeric value or a string to be fed to float(). -/
inductive PyVal where
  | num (q : ℚ)
  | str (s : String)
deriving DecidableEq

/-- Digits of a decimal integer string, most significant first. -/
def decDigitsAux : List Char → Nat → Option Nat
  | [], acc => some acc
  | c :: cs, acc =>
    if c.isDigit then decDigitsAux cs (acc * 10 + (c.toNat - 48)) else none

/-- Python float() restricted to the value shapes the app feeds it:
numbers pass through, decimal-integer strings (the only string literal in
the source is the shipping default, the string 0) parse, anything else
raises ValueError (none). -/
def pyFloat : PyVal → Option ℚ
  | .num q => some q
  | .str s => if s.data = [] then none else (decDigitsAux s.data 0).map (fun n => (n : ℚ))

/-- The price block of one eBay item summary. -/
structure EPrice where
  value : Option PyVal
  currency : Option String
deriving DecidableEq

/-- The shippingCost block of one shipping option. -/
structure ShipCost where
  value : Option PyVal
deriving DecidableEq

/-- One entry of the shippingOptions array. -/
structure ShipOption where
  shippingCost : Option ShipCost
deriving DecidableEq

/-- The image block of one eBay item summary. -/
structure ImageBlock where
  imageUrl : Option String
deriving DecidableEq

/-- One element of itemSummaries in the eBay search response; a field
holds none when the corresponding JSON key is absent. -/
structure EbayItem where
  title : Option String
  price : Option EPrice
  shippingOptions : List ShipOption
  condition : Option String
  image : Option ImageBlock
  itemWebUrl : Option String
deriving DecidableEq

/-- One normalized offer row as appended to results.  The Price Info
f-string of the source is modelled by its data: the raw amount, the
currency, and the shipping amount when the string has a ship part. -/
structure Offer where
  source : String
  title : Option String
  condition : String
  infoAmount : ℚ
  infoCurrency : String
  infoShipping : Option ℚ
  total : ℚ
  image : String
  url : Option String
deriving DecidableEq

/-- The api_keys dict built in main (src/app.py lines 425-429); a missing
credential is the empty string that an untouched text input yields. -/
structure ApiKeys where
  ebay_client_id : String
  ebay_client_secret : String
  amazon_access_key : String
  amazon_secret_key : String
  amazon_tag : String
  exchange_rate_key : String
deriving DecidableEq

/-- The JSON payload of the exchange-rate endpoint: an optional result
status field and an optional conversion_rates mapping. -/
structure RatePayload where
  result : Option String
  conversion_rates : Option RateTable

/-- EbayAggregator._get_exchange_rates (src/app.py lines 24-38).  fetch is
the network round trip: none when requests.get or response.json raises.
The Bool of the pair records whether network I/O was attempted.  With no
configured key the function returns an empty table before any I/O; a
non-success status, a missing conversion_rates key (KeyError, caught by
the except) or a raised exception all fall back to the empty table. -/
def get_exchange_rates (keys : ApiKeys) (fetch : Option RatePayload) :
    RateTable × Bool :=
  if keys.exchange_rate_key = "" then ([], false)
  else
    match fetch with
    | none => ([], true)
    | some payload =>
      if payload.result = some "success" then
        match payload.conversion_rates with
        | some table => (table, true)
        | none => ([], true)
      else ([], true)

/-- EbayAggregator._get_ebay_token and EcommerceAggregator._get_ebay_token
(src/app.py lines 54-75 and 250-269): with either eBay credential missing
return None before any network call; otherwise the token is whatever the
OAuth exchange produced (none when the request raised or the payload had
no access_token). -/
def get_ebay_token (keys : ApiKeys) (tokenApi : Option String) : Option String :=
  if keys.ebay_client_id = "" ∨ keys.ebay_client_secret = "" then none
  else tokenApi

/-- The condition filter expression of search_ebay (src/app.py lines
85-91 and 281-285): empty unless the condition is exactly New or exactly
Used/Refurbished. -/
def filter_str (condition : String) : String :=
  if condition = "New" then "&filter=conditionIds:\x7b1000\x7d"
  else if condition = "Used/Refurbished" then "&filter=conditionIds:\x7b1500|2000|2500|3000\x7d"
  else ""

/-- The eBay search request URL built from the cleaned query, the fixed
limit of 10 and the condition filter expression (src/app.py lines 92 and
287). -/
def ebay_search_url (clean_query : String) (condition : String) : String :=
  "https://api.ebay.com/buy/browse/v1/item_summary/search?q=" ++ clean_query
    ++ "&limit=10" ++ filter_str condition

/-- The body of the item loop of EcommerceAggregator.search_ebay
(src/app.py lines 299-322).  none models an exception escaping the loop
body: a missing price block or missing value/currency key (KeyError), a
malformed numeric value (ValueError in float) or a zero stored rate
(ZeroDivisionError inside _convert_price). -/
def parse_item_ecom (rates : RateTable) (target_currency : String)
    (item : EbayItem) : Option Offer := do
  let priceObj ← item.price
  let rawVal ← priceObj.value
  let raw_price ← pyFloat rawVal
  let currency ← priceObj.currency
  let shipping ←
    match item.shippingOptions with
    | [] => some (0 : ℚ)
    | opt :: _ => pyFloat ((opt.shippingCost.getD { value := some (.str "0") }).value.getD (.num 0))
  let final_price ← convert_price rates target_currency (raw_price + shipping) currency
  some { source := "eBay", title := item.title,
         condition := item.condition.getD "Unknown",
         infoAmount := raw_price, infoCurrency := currency,
         infoShipping := some shipping, total := final_price,
         image := ((item.image.getD { imageUrl := none }).imageUrl.getD ""),
         url := item.itemWebUrl }

/-- The body of the item loop of EbayAggregator.search_ebay (src/app.py
lines 104-131): same as parse_item_ecom except that an absent price block
or absent value/currency key is defaulted (0 and USD) instead of raising;
a malformed numeric value or a zero stored rate still raises (none). -/
def parse_item_ebay (rates : RateTable) (target_currency : String)
    (item : EbayItem) : Option Offer := do
  let priceObj := item.price.getD { value := none, currency := none }
  let raw_price ← pyFloat (priceObj.value.getD (.num 0))
  let currency := priceObj.currency.getD "USD"
  let shipping ←
    match item.shippingOptions with
    | [] => some (0 : ℚ)
    | opt :: _ => pyFloat ((opt.shippingCost.getD { value := none }).value.getD (.num 0))
  let final_price ← convert_price rates target_currency (raw_price + shipping) currency
  some { source := "eBay", title := item.title,
         condition := item.condition.getD "Unknown",
         infoAmount := raw_price, infoCurrency := currency,
         infoShipping := some shipping, total := final_price,
         image := ((item.image.getD { imageUrl := none }).imageUrl.getD ""),
         url := item.itemWebUrl }

/-- The item loop itself: results are appended item by item; the first
exception aborts the loop with everything accumulated so far discarded. -/
def parse_all (parse : EbayItem → Option Offer) : List EbayItem → Option (List Offer)
  | [] => some []
  | i :: is =>
    match parse i with
    | none => none
    | some o =>
      match parse_all parse is with
      | none => none
      | some os => some (o :: os)

/-- The try block of search_ebay around the item loop: an exception
anywhere inside it is caught at source level and converted to an empty
list for the whole source. -/
def search_ebay_items (parse : EbayItem → Option Offer) (items : List EbayItem) :
    List Offer :=
  match parse_all parse items with
  | some offers => offers
  | none => []

/-- EcommerceAggregator.search_ebay (src/app.py lines 271-327).  itemsApi
is the search round trip as a function of the request URL: none models a
raised request/JSON error and also a response without the itemSummaries
key (both paths yield the empty list). -/
def search_ebay_ecom (keys : ApiKeys) (rates : RateTable) (target_currency : String)
    (tokenApi : Option String) (itemsApi : String → Option (List EbayItem))
    (query condition : String) : List Offer :=
  match get_ebay_token keys tokenApi with
  | none => []
  | some _ =>
    match itemsApi (ebay_search_url (nlp_clean_query query) condition) with
    | none => []
    | some items => search_ebay_items (parse_item_ecom rates target_currency) items

/-- One product record of the Amazon PA-API response, already shaped as
the attribute chain the source reads; prices is none when the item has no
usable price substructure (Python: item.prices and item.prices.price is
falsy). -/
structure AmazonItem where
  title : String
  prices : Option ℚ
  image : String
  detail_page_url : String
deriving DecidableEq

/-- The row built for one Amazon product (src/app.py lines 353-361). -/
def amazon_offer (item : AmazonItem) : Offer :=
  { source := "Amazon", title := some item.title, condition := "New",
    infoAmount := item.prices.getD 0, infoCurrency := "USD",
    infoShipping := none, total := item.prices.getD 0,
    image := item.image, url := some item.detail_page_url }

/-- EcommerceAggregator.search_amazon (src/app.py lines 329-365).  Only
the access key is checked before the call; api is the PA-API search as a
function of the cleaned query (none models any exception: construction or
search failure, as with a missing secret or tag).  The Nat of the pair
counts API call attempts. -/
def search_amazon (keys : ApiKeys) (query : String)
    (api : String → Option (List AmazonItem)) : List Offer × Nat :=
  if keys.amazon_access_key = "" then ([], 0)
  else
    match api (nlp_clean_query query) with
    | none => ([], 1)
    | some items => (items.map amazon_offer, 1)

/-- One row of the demo catalogs: Price Info here is the literal display
string of the source. -/
structure MockOffer where
  source : String
  title : String
  condition : String
  priceInfo : String
  total : ℚ
  image : String
  url : String
deriving DecidableEq

/-- Python: the substring test NEEDLE in HAY. -/
def strContains (hay needle : String) : Bool :=
  hay.data.tails.any (fun t => needle.data.isPrefixOf t)

/-- First entry of the EcommerceAggregator demo catalog. -/
def mockEcom0 : MockOffer :=
  { source := "Amazon", title := "Sony WH-1000XM5 Wireless (New)", condition := "New",
    priceInfo := "348.00 USD", total := 348,
    image := "https://m.media-amazon.com/images/I/51SKmu2G9FL._AC_SL1000_.jpg",
    url := "https://amazon.com" }

/-- Second entry of the EcommerceAggregator demo catalog. -/
def mockEcom1 : MockOffer :=
  { source := "eBay", title := "Sony WH-1000XM5 Silver (Open Box)", condition := "Open Box",
    priceInfo := "280.00 USD (+ 15.00 ship)", total := 295,
    image := "https://i.ebayimg.com/images/g/test/s-l500.jpg",
    url := "https://ebay.com" }

/-- Third entry of the EcommerceAggregator demo catalog. -/
def mockEcom2 : MockOffer :=
  { source := "eBay", title := "Sony WH-1000XM5 Black (Refurbished)", condition := "Refurbished",
    priceInfo := "250.00 GBP (+ 20.00 ship)", total := 340,
    image := "https://i.ebayimg.com/images/g/test2/s-l500.jpg",
    url := "https://ebay.com" }

/-- mock_db of EcommerceAggregator.get_mock_data (src/app.py lines 369-373). -/
def mock_db_ecom : List MockOffer := [mockEcom0, mockEcom1, mockEcom2]

/-- First entry of the EbayAggregator demo catalog. -/
def mockEbay0 : MockOffer :=
  { source := "eBay", title := "Apple iPhone 15 Pro 128GB (New)", condition := "New",
    priceInfo := "999.00 USD (+ 0 ship)", total := 999,
    image := "https://i.ebayimg.com/images/g/test/s-l500.jpg", url := "#" }

/-- Second entry of the EbayAggregator demo catalog. -/
def mockEbay1 : MockOffer :=
  { source := "eBay", title := "Apple iPhone 15 Pro (Open Box)", condition := "Open Box",
    priceInfo := "850.00 USD (+ 15 ship)", total := 865,
    image := "https://i.ebayimg.com/images/g/test2/s-l500.jpg", url := "#" }

/-- Third entry of the EbayAggregator demo catalog. -/
def mockEbay2 : MockOffer :=
  { source := "eBay", title := "iPhone 15 Pro Parts Only", condition := "Parts",
    priceInfo := "200.00 USD (+ 10 ship)", total := 210,
    image := "https://i.ebayimg.com/images/g/test3/s-l500.jpg", url := "#" }

/-- mock_db of EbayAggregator.get_mock_data (src/app.py lines 139-143). -/
def mock_db_ebay : List MockOffer := [mockEbay0, mockEbay1, mockEbay2]

/-- EcommerceAggregator.get_mock_data (src/app.py lines 367-379): filter
the fixed catalog by the substring New in the condition label. -/
def get_mock_data_ecom (condition_filter : String) : List MockOffer :=
  if condition_filter = "New" then
    mock_db_ecom.filter (fun x => strContains x.condition "New")
  else if condition_filter = "Used/Refurbished" then
    mock_db_ecom.filter (fun x => !strContains x.condition "New")
  else mock_db_ecom

/-- EbayAggregator.get_mock_data (src/app.py lines 137-149): same
filtering over the other catalog. -/
def get_mock_data_ebay (condition_filter : String) : List MockOffer :=
  if condition_filter = "New" then
    mock_db_ebay.filter (fun x => strContains x.condition "New")
  else if condition_filter = "Used/Refurbished" then
    mock_db_ebay.filter (fun x => !strContains x.condition "New")
  else mock_db_ebay

/-- The live branch of the search orchestration in main (src/app.py lines
442-450): query eBay, then query Amazon only when the condition filter is
in the list containing New and Any, and extend the merged result list.
The Nat of the pair counts how many times the search_amazon adapter is
invoked by the orchestration. -/
def run_live_search (keys : ApiKeys) (rates : RateTable) (target_currency : String)
    (tokenApi : Option String) (itemsApi : String → Option (List EbayItem))
    (amazonApi : String → Option (List AmazonItem))
    (query condition_filter : String) : List Offer × Nat :=
  let ebay_res := search_ebay_ecom keys rates target_currency tokenApi itemsApi query condition_filter
  if condition_filter ∈ (["New", "Any"] : List String) then
    let amz := search_amazon keys query amazonApi
    (ebay_res ++ amz.1, 1)
  else (ebay_res, 0)

/-- A well-formed item of the eBay response: a complete price block, no
shipping options, nothing that can raise while the loop processes it. -/
def goodItem : EbayItem :=
  { title := some "Good Deal",
    price := some { value := some (.num 100), currency := some "USD" },
    shippingOptions := [], condition := some "New", image := none,
    itemWebUrl := some "https://ebay.com/good" }

/-- An item whose price block is absent, so the EcommerceAggregator item
loop raises KeyError on it. -/
def badItem : EbayItem :=
  { title := some "Bad Item", price := none, shippingOptions := [],
    condition := some "Used", image := none, itemWebUrl := none }

/-! Helper lemmas about the query normalizer. -/

theorem pyLower_idem (c : Char) : pyLower (pyLower c) = pyLower c := by
  rcases h : lowerPairs.find? (fun p => p.1 == c) with _ | ⟨u, l⟩
  · have hc : pyLower c = c := by simp [pyLower, h]
    rw [hc]
    exact hc
  · have hc : pyLower c = l := by simp [pyLower, h]
    rw [hc]
    have hmem : (u, l) ∈ lowerPairs := List.mem_of_find?_eq_some h
    have key : ∀ p ∈ lowerPairs, pyLower p.2 = p.2 := by decide
    exact key (u, l) hmem

theorem map_id_of_fixed {f : Char → Char} :
    ∀ (l : List Char), (∀ c ∈ l, f c = c) → l.map f = l := by
  intro l
  induction l with
  | nil => intro _; rfl
  | cons a t ih =>
    intro h
    simp only [List.map_cons]
    rw [h a (by simp), ih (fun c hc => h c (by simp [hc]))]

theorem pySplit_nil : pySplit [] = [] := by
  rw [pySplit]

theorem pySplit_cons_space {c : Char} (cs : List Char) (h : isPySpace c = true) :
    pySplit (c :: cs) = pySplit cs := by
  rw [pySplit]
  simp [h]

theorem pySplit_cons_nonspace {c : Char} (cs : List Char) (h : isPySpace c = false) :
    pySplit (c :: cs) =
      (c :: cs.takeWhile (fun x => !isPySpace x)) ::
        pySplit (cs.dropWhile (fun x => !isPySpace x)) := by
  rw [pySplit]
  simp [h]

theorem takeWhile_token_append (rest : List Char) :
    ∀ (t : List Char), (∀ c ∈ t, isPySpace c = false) →
      (t ++ ' ' :: rest).takeWhile (fun x => !isPySpace x) = t := by
  intro t
  induction t with
  | nil => intro _; simp [List.takeWhile_cons, isPySpace]
  | cons a t ih =>
    intro h
    have ha : isPySpace a = false := h a (by simp)
    simp only [List.cons_append, List.takeWhile_cons, ha]
    simp [ih (fun c hc => h c (by simp [hc]))]

theorem dropWhile_token_append (rest : List Char) :
    ∀ (t : List Char), (∀ c ∈ t, isPySpace c = false) →
      (t ++ ' ' :: rest).dropWhile (fun x => !isPySpace x) = ' ' :: rest := by
  intro t
  induction t with
  | nil => intro _; simp [List.dropWhile_cons, isPySpace]
  | cons a t ih =>
    intro h
    have ha : isPySpace a = false := h a (by simp)
    simp only [List.cons_append, List.dropWhile_cons, ha]
    simp [ih (fun c hc => h c (by simp [hc]))]

theorem takeWhile_all_nonspace :
    ∀ (t : List Char), (∀ c ∈ t, isPySpace c = false) →
      t.takeWhile (fun x => !isPySpace x) = t := by
  intro t
  induction t with
  | nil => intro _; rfl
  | cons a t ih =>
    intro h
    have ha : isPySpace a = false := h a (by simp)
    simp only [List.takeWhile_cons, ha]
    simp [ih (fun c hc => h c (by simp [hc]))]

theorem dropWhile_all_nonspace :
    ∀ (t : List Char), (∀ c ∈ t, isPySpace c = false) →
      t.dropWhile (fun x => !isPySpace x) = [] := by
  intro t
  induction t with
  | nil => intro _; rfl
  | cons a t ih =>
    intro h
    have ha : isPySpace a = false := h a (by simp)
    simp only [List.dropWhile_cons, ha]
    simp [ih (fun c hc => h c (by simp [hc]))]

theorem pySplit_token_append (t rest : List Char) (ht : t ≠ [])
    (h : ∀ c ∈ t, isPySpace c = false) :
    pySplit (t ++ ' ' :: rest) = t :: pySplit rest := by
  match t, ht with
  | c :: t2, _ =>
    have hc : isPySpace c = false := h c (by simp)
    have h2 : ∀ x ∈ t2, isPySpace x = false := fun x hx => h x (by simp [hx])
    rw [List.cons_append, pySplit_cons_nonspace _ hc,
        takeWhile_token_append rest t2 h2, dropWhile_token_append rest t2 h2,
        pySplit_cons_space rest (by simp [isPySpace])]

theorem pySplit_token_only (t : List Char) (ht : t ≠ [])
    (h : ∀ c ∈ t, isPySpace c = false) : pySplit t = [t] := by
  match t, ht with
  | c :: t2, _ =>
    have hc : isPySpace c = false := h c (by simp)
    have h2 : ∀ x ∈ t2, isPySpace x = false := fun x hx => h x (by simp [hx])
    rw [pySplit_cons_nonspace _ hc, takeWhile_all_nonspace t2 h2,
        dropWhile_all_nonspace t2 h2, pySplit_nil]

theorem pySplit_joinSp :
    ∀ (ts : List (List Char)),
      (∀ t ∈ ts, t ≠ [] ∧ ∀ c ∈ t, isPySpace c = false) →
      pySplit (joinSp ts) = ts := by
  intro ts
  induction ts with
  | nil =>
    intro _
    show pySplit [] = []
    exact pySplit_nil
  | cons t ts ih =>
    intro h
    have ht := h t (by simp)
    cases ts with
    | nil =>
      show pySplit (joinSp [t]) = [t]
      rw [show joinSp [t] = t from rfl]
      exact pySplit_token_only t ht.1 ht.2
    | cons t2 ts2 =>
      rw [show joinSp (t :: t2 :: ts2) = t ++ ' ' :: joinSp (t2 :: ts2) from rfl,
          pySplit_token_append t _ ht.1 ht.2,
          ih (fun u hu => h u (by simp [hu]))]

theorem pySplit_sound :
    ∀ (n : Nat) (l : List Char), l.length ≤ n →
      ∀ t ∈ pySplit l, t ≠ [] ∧ ∀ c ∈ t, isPySpace c = false ∧ c ∈ l := by
  intro n
  induction n with
  | zero =>
    intro l hl
    have : l = [] := List.length_eq_zero.mp (Nat.le_zero.mp hl)
    subst this
    intro t ht
    rw [pySplit_nil] at ht
    cases ht
  | succ n ih =>
    intro l hl
    cases l with
    | nil =>
      intro t ht
      rw [pySplit_nil] at ht
      cases ht
    | cons c cs =>
      have hcs : cs.length ≤ n := by simpa using hl
      cases hc : isPySpace c with
      | true =>
        rw [pySplit_cons_space cs hc]
        intro t ht
        rcases ih cs hcs t ht with ⟨h1, h2⟩
        exact ⟨h1, fun x hx => ⟨(h2 x hx).1, by simp [(h2 x hx).2]⟩⟩
      | false =>
        rw [pySplit_cons_nonspace cs hc]
        intro t ht
        rcases List.mem_cons.mp ht with h | h
        · subst h
          refine ⟨by simp, ?_⟩
          intro x hx
          rcases List.mem_cons.mp hx with h | h
          · subst h; exact ⟨hc, by simp⟩
          · have hpx := List.mem_takeWhile_imp (p := fun y => !isPySpace y) h
            have hxl : x ∈ cs := (List.takeWhile_sublist _).mem h
            exact ⟨by simpa using hpx, by simp [hxl]⟩
        · have hlen : (cs.dropWhile (fun x => !isPySpace x)).length ≤ n :=
            le_trans (List.dropWhile_suffix (l := cs)
              (fun x => !isPySpace x)).sublist.length_le hcs
          rcases ih _ hlen t h with ⟨h1, h2⟩
          refine ⟨h1, fun x hx => ⟨(h2 x hx).1, ?_⟩⟩
          have : x ∈ cs :=
            (List.dropWhile_suffix (l := cs) (fun y => !isPySpace y)).sublist.mem
              (h2 x hx).2
          simp [this]

theorem mem_joinSp :
    ∀ (ts : List (List Char)) (c : Char), c ∈ joinSp ts →
      c = ' ' ∨ ∃ t ∈ ts, c ∈ t := by
  intro ts
  induction ts with
  | nil => intro c hc; cases hc
  | cons t ts ih =>
    intro c hc
    cases ts with
    | nil =>
      right
      exact ⟨t, by simp, by simpa using hc⟩
    | cons t2 ts2 =>
      rw [show joinSp (t :: t2 :: ts2) = t ++ ' ' :: joinSp (t2 :: ts2) from rfl] at hc
      rcases List.mem_append.mp hc with h | h
      · exact Or.inr ⟨t, by simp, h⟩
      · rcases List.mem_cons.mp h with h | h
        · exact Or.inl h
        · rcases ih c h with h | ⟨u, hu, hcu⟩
          · exact Or.inl h
          · exact Or.inr ⟨u, by simp [hu], hcu⟩

theorem filter_pySplit_tokens_ok (l : List Char) (pred : List Char → Bool) :
    ∀ t ∈ (pySplit l).filter pred, t ≠ [] ∧ ∀ c ∈ t, isPySpace c = false := by
  intro t ht
  have ht2 := List.mem_of_mem_filter ht
  rcases pySplit_sound l.length l (le_refl _) t ht2 with ⟨h1, h2⟩
  exact ⟨h1, fun c hc => (h2 c hc).1⟩

theorem parse_all_eq_none (parse : EbayItem → Option Offer) :
    ∀ (items : List EbayItem) (i : EbayItem), i ∈ items → parse i = none →
      parse_all parse items = none := by
  intro items
  induction items with
  | nil => intro i hi; cases hi
  | cons a as ih =>
    intro i hi hp
    rcases List.mem_cons.mp hi with h | h
    · subst h
      simp [parse_all, hp]
    · cases hpa : parse a with
      | none => simp [parse_all, hpa]
      | some o => simp [parse_all, hpa, ih i h hp]

theorem parse_all_length (parse : EbayItem → Option Offer) :
    ∀ (items : List EbayItem), (∀ i ∈ items, (parse i).isSome) →
      ∃ os, parse_all parse items = some os ∧ os.length = items.length := by
  intro items
  induction items with
  | nil => intro _; exact ⟨[], rfl, rfl⟩
  | cons a as ih =>
    intro h
    rcases Option.isSome_iff_exists.mp (h a (by simp)) with ⟨o, ho⟩
    rcases ih (fun i hi => h i (by simp [hi])) with ⟨os, hos, hlen⟩
    refine ⟨o :: os, ?_, by simp [hlen]⟩
    simp [parse_all, ho, hos]

/-- C9: query normalization is idempotent: for every input string q,
normalize(normalize(q)) equals normalize(q), where normalize lower-cases,
splits on whitespace, drops stop-word tokens, and rejoins with single
spaces (the _nlp_clean_query method shared by both aggregator classes). -/
theorem nlp_clean_query_idempotent (q : String) :
    nlp_clean_query (nlp_clean_query q) = nlp_clean_query q := by
  unfold nlp_clean_query
  apply congrArg String.mk
  set pred : List Char → Bool :=
    fun w => !((stop_words.map String.data).contains w) with hpred
  set L : List Char := q.data.map pyLower with hL
  set ts : List (List Char) := (pySplit L).filter pred with hts
  have tokProps : ∀ t ∈ ts, t ≠ [] ∧ ∀ c ∈ t, isPySpace c = false :=
    filter_pySplit_tokens_ok L pred
  have mapFix : (joinSp ts).map pyLower = joinSp ts := by
    apply map_id_of_fixed
    intro c hc
    rcases mem_joinSp ts c hc with h | ⟨t, ht, hct⟩
    · subst h
      decide
    · have ht2 := List.mem_of_mem_filter ht
      have hcL : c ∈ L :=
        ((pySplit_sound L.length L (le_refl _) t ht2).2 c hct).2
      rcases List.mem_map.mp hcL with ⟨x, _, hx⟩
      rw [← hx]
      exact pyLower_idem x
  have splitBack : pySplit (joinSp ts) = ts := pySplit_joinSp ts tokProps
  have filterSelf : ts.filter pred = ts := by
    apply List.filter_eq_self.mpr
    intro t ht
    exact (List.mem_filter.mp ht).2
  show joinSp ((pySplit ((String.mk (joinSp ts)).data.map pyLower)).filter pred)
      = joinSp ts
  rw [show (String.mk (joinSp ts)).data = joinSp ts from rfl,
      mapFix, splitBack, filterSelf]

/-- C1: the claim says a stored rate of exactly 0 makes _convert_price
behave as if the currency were absent (return the price unchanged, no
division by zero).  The code has no zero-rate guard: with a zero rate it
reaches price / rate and raises ZeroDivisionError (none in the
embedding) instead of returning the price. -/
theorem convert_price_zero_rate_raises :
    convert_price [("GBP", 0)] "USD" 100 "GBP" = none ∧
    (none : Option ℚ) ≠ some (100 : ℚ) :=
  ⟨rfl, by decide⟩

/-- C2 counterexample: in EcommerceAggregator.search_ebay one item with
an absent price block (KeyError inside the loop, caught around the whole
loop) makes the source return the empty list, although the other,
well-formed item parses to an offer on its own. -/
theorem search_ebay_one_bad_item_drops_all :
    search_ebay_items (parse_item_ecom [] "USD") [goodItem, badItem] = [] ∧
    (parse_item_ecom [] "USD" goodItem).isSome = true ∧
    (search_ebay_items (parse_item_ecom [] "USD") [goodItem]).length = 1 :=
  ⟨rfl, rfl, rfl⟩

/-- C2 amended: a missing or malformed field in one item never raises to
the caller, but it does not skip just that item either: the exception is
caught around the whole item loop, so the entire source contribution
becomes the empty list; only when every item parses does search_ebay
return the offers of all items. -/
theorem search_ebay_item_failure_drops_source :
    (∀ (rates : RateTable) (target : String) (items : List EbayItem) (i : EbayItem),
        i ∈ items → parse_item_ecom rates target i = none →
        search_ebay_items (parse_item_ecom rates target) items = []) ∧
    (∀ (rates : RateTable) (target : String) (items : List EbayItem),
        (∀ i ∈ items, (parse_item_ecom rates target i).isSome) →
        (search_ebay_items (parse_item_ecom rates target) items).length
          = items.length) := by
  constructor
  · intro rates target items i hi hp
    unfold search_ebay_items
    rw [parse_all_eq_none (parse_item_ecom rates target) items i hi hp]
  · intro rates target items h
    rcases parse_all_length (parse_item_ecom rates target) items h with ⟨os, hos, hlen⟩
    unfold search_ebay_items
    rw [hos]
    exact hlen

theorem search_ebay_item_failure_drops_source_witness :
    search_ebay_items (parse_item_ecom [] "USD") [badItem] = [] ∧
    (search_ebay_items (parse_item_ecom [] "USD") [goodItem]).length = 1 := by
  constructor
  · exact search_ebay_item_failure_drops_source.1 [] "USD" [badItem] badItem
      (List.mem_singleton.mpr rfl) rfl
  · have h := search_ebay_item_failure_drops_source.2 [] "USD" [goodItem]
      (fun i hi => by rw [List.mem_singleton.mp hi]; rfl)
    rw [h]
    rfl

/-- C3: the conversion returns the amount unchanged when the currency is
the target; unchanged when the table is empty or has no entry; otherwise
(for a usable nonzero rate) the amount divided by the rate — and 270 GBP
at rate 0.79 converts to 27000/79, within 0.01 of 341.77. -/
theorem convert_price_branches :
    (∀ (price : ℚ) (target : String) (rates : RateTable),
        convert_price rates target price target = some price) ∧
    (∀ (price : ℚ) (currency target : String) (rates : RateTable),
        lookupRate rates currency = none →
        convert_price rates target price currency = some price) ∧
    (∀ (price : ℚ) (currency target : String),
        convert_price [] target price currency = some price) ∧
    (∀ (price : ℚ) (currency target : String) (rates : RateTable) (rate : ℚ),
        currency ≠ target → lookupRate rates currency = some rate → rate ≠ 0 →
        convert_price rates target price currency = some (price / rate)) ∧
    convert_price [("GBP", 79/100)] "USD" 270 "GBP" = some (27000 / 79) ∧
    |(27000 : ℚ) / 79 - 34177 / 100| < 1 / 100 := by
  refine ⟨?_, ?_, ?_, ?_, ?_, ?_⟩
  · intro price target rates
    simp [convert_price]
  · intro price currency target rates h
    by_cases hct : currency = target
    · simp [convert_price, hct]
    · simp [convert_price, hct, h]
  · intro price currency target
    by_cases hct : currency = target
    · simp [convert_price, hct]
    · simp [convert_price, hct, lookupRate, List.find?]
  · intro price currency target rates rate hct hr hr0
    simp [convert_price, hct, hr, hr0]
  · simp [convert_price, lookupRate, List.find?]
    norm_num
  · rw [abs_sub_lt_iff]
    norm_num

theorem convert_price_branches_witness :
    convert_price [] "USD" 5 "USD" = some 5 ∧
    convert_price [] "USD" 7 "EUR" = some 7 ∧
    convert_price [] "USD" 9 "JPY" = some 9 ∧
    convert_price [("GBP", 2)] "USD" 10 "GBP" = some (10 / 2) :=
  ⟨convert_price_branches.1 5 "USD" [],
   convert_price_branches.2.1 7 "EUR" "USD" [] rfl,
   convert_price_branches.2.2.1 9 "JPY" "USD",
   convert_price_branches.2.2.2.1 10 "GBP" "USD" [("GBP", 2)] 2
     (by decide) rfl (by decide)⟩

/-- C5: both demo catalogs are partitioned by the condition filter: the
New filter returns exactly the entries whose condition label contains the
substring New, Used/Refurbished returns exactly the complement, Any (any
other value) returns the full catalog, and the New and Used/Refurbished
results concatenate back to the whole catalog (disjoint cover). -/
theorem mock_data_partition :
    get_mock_data_ecom "Any" = mock_db_ecom ∧
    get_mock_data_ecom "New" = [mockEcom0] ∧
    get_mock_data_ecom "Used/Refurbished" = [mockEcom1, mockEcom2] ∧
    get_mock_data_ecom "New" ++ get_mock_data_ecom "Used/Refurbished" = mock_db_ecom ∧
    strContains mockEcom0.condition "New" = true ∧
    strContains mockEcom1.condition "New" = false ∧
    strContains mockEcom2.condition "New" = false ∧
    get_mock_data_ebay "Any" = mock_db_ebay ∧
    get_mock_data_ebay "New" = [mockEbay0] ∧
    get_mock_data_ebay "Used/Refurbished" = [mockEbay1, mockEbay2] ∧
    get_mock_data_ebay "New" ++ get_mock_data_ebay "Used/Refurbished" = mock_db_ebay ∧
    strContains mockEbay0.condition "New" = true ∧
    strContains mockEbay1.condition "New" = false ∧
    strContains mockEbay2.condition "New" = false :=
  ⟨rfl, rfl, rfl, rfl, rfl, rfl, rfl, rfl, rfl, rfl, rfl, rfl, rfl, rfl⟩

/-- C6 counterexample: with the Amazon access key present but the secret
key and partner tag missing (empty), search_amazon still attempts the API
call — the call count is not zero, contradicting the claim that a missing
credential short-circuits before any call.  The failed call is caught and
yields the empty list. -/
theorem search_amazon_missing_secret_still_calls :
    (search_amazon ⟨"", "", "AKIA", "", "", ""⟩ "query" (fun _ => none)).2 ≠ 0 ∧
    (search_amazon ⟨"", "", "AKIA", "", "", ""⟩ "query" (fun _ => none)).1 = [] :=
  ⟨by decide, rfl⟩

/-- C6 amended: only the access key gates the call: if it is missing,
search_amazon returns an empty list with no API call attempted; if it is
present the call is always attempted (even when the secret key or tag is
missing), and a failing call is caught, still yielding an empty list. -/
theorem search_amazon_credentials_amended :
    (∀ (keys : ApiKeys) (q : String) (api : String → Option (List AmazonItem)),
        keys.amazon_access_key = "" → search_amazon keys q api = ([], 0)) ∧
    (∀ (keys : ApiKeys) (q : String) (api : String → Option (List AmazonItem)),
        keys.amazon_access_key ≠ "" → (search_amazon keys q api).2 = 1) ∧
    (∀ (keys : ApiKeys) (q : String),
        keys.amazon_access_key ≠ "" →
        (search_amazon keys q (fun _ => none)).1 = []) := by
  refine ⟨?_, ?_, ?_⟩
  · intro keys q api h
    simp [search_amazon, h]
  · intro keys q api h
    cases h2 : api (nlp_clean_query q) with
    | none => simp [search_amazon, h, h2]
    | some items => simp [search_amazon, h, h2]
  · intro keys q h
    simp [search_amazon, h]

theorem search_amazon_credentials_amended_witness :
    search_amazon ⟨"", "", "", "", "", ""⟩ "q" (fun _ => none) = ([], 0) ∧
    (search_amazon ⟨"", "", "AK", "SK", "TAG", ""⟩ "q" (fun _ => some [])).2 = 1 ∧
    (search_amazon ⟨"", "", "AK", "", "", ""⟩ "q" (fun _ => none)).1 = [] :=
  ⟨search_amazon_credentials_amended.1 ⟨"", "", "", "", "", ""⟩ "q" (fun _ => none) rfl,
   search_amazon_credentials_amended.2.1 ⟨"", "", "AK", "SK", "TAG", ""⟩ "q"
     (fun _ => some []) (by decide),
   search_amazon_credentials_amended.2.2 ⟨"", "", "AK", "", "", ""⟩ "q" (by decide)⟩

/-- C7: when the condition filter is Used/Refurbished the orchestration
never invokes the New-only Amazon source (its adapter call count is 0 and
the result is the eBay contribution alone); the Amazon adapter is invoked
exactly when the filter is New or Any. -/
theorem amazon_source_skipped_for_used_filter :
    (∀ (keys : ApiKeys) (rates : RateTable) (target : String)
        (tokenApi : Option String) (itemsApi : String → Option (List EbayItem))
        (amazonApi : String → Option (List AmazonItem)) (q cond : String),
        cond = "Used/Refurbished" →
        run_live_search keys rates target tokenApi itemsApi amazonApi q cond
          = (search_ebay_ecom keys rates target tokenApi itemsApi q cond, 0)) ∧
    (∀ (keys : ApiKeys) (rates : RateTable) (target : String)
        (tokenApi : Option String) (itemsApi : String → Option (List EbayItem))
        (amazonApi : String → Option (List AmazonItem)) (q cond : String),
        (run_live_search keys rates target tokenApi itemsApi amazonApi q cond).2
          = if cond = "New" ∨ cond = "Any" then 1 else 0) := by
  constructor
  · intro keys rates target tokenApi itemsApi amazonApi q cond hc
    subst hc
    simp [run_live_search]
  · intro keys rates target tokenApi itemsApi amazonApi q cond
    by_cases h : cond ∈ (["New", "Any"] : List String)
    · have h2 : cond = "New" ∨ cond = "Any" := by simpa using h
      simp [run_live_search, h, h2]
    · have h2 : ¬(cond = "New" ∨ cond = "Any") := by simpa using h
      simp [run_live_search, h, h2]

theorem amazon_source_skipped_for_used_filter_witness :
    run_live_search ⟨"", "", "", "", "", ""⟩ [] "USD" none (fun _ => none)
        (fun _ => none) "q" "Used/Refurbished"
      = (search_ebay_ecom ⟨"", "", "", "", "", ""⟩ [] "USD" none (fun _ => none)
          "q" "Used/Refurbished", 0) :=
  amazon_source_skipped_for_used_filter.1 ⟨"", "", "", "", "", ""⟩ [] "USD" none
    (fun _ => none) (fun _ => none) "q" "Used/Refurbished" rfl

/-- C8: the exchange-rate fetch never raises: the embedding is a total
function into a table.  With no configured rate-provider key it returns an
empty table without network I/O (second component false); with a key, a
raised fetch, a non-success status, or a success payload missing the
conversion_rates mapping all yield the empty table; only a success payload
with the mapping present yields that mapping. -/
theorem exchange_rates_fail_open :
    (∀ (keys : ApiKeys) (fetch : Option RatePayload),
        keys.exchange_rate_key = "" → get_exchange_rates keys fetch = ([], false)) ∧
    (∀ (keys : ApiKeys),
        keys.exchange_rate_key ≠ "" → get_exchange_rates keys none = ([], true)) ∧
    (∀ (keys : ApiKeys) (p : RatePayload),
        keys.exchange_rate_key ≠ "" → p.result ≠ some "success" →
        get_exchange_rates keys (some p) = ([], true)) ∧
    (∀ (keys : ApiKeys) (p : RatePayload),
        keys.exchange_rate_key ≠ "" → p.conversion_rates = none →
        get_exchange_rates keys (some p) = ([], true)) ∧
    (∀ (keys : ApiKeys) (p : RatePayload) (table : RateTable),
        keys.exchange_rate_key ≠ "" → p.result = some "success" →
        p.conversion_rates = some table →
        get_exchange_rates keys (some p) = (table, true)) := by
  refine ⟨?_, ?_, ?_, ?_, ?_⟩
  · intro keys fetch h
    simp [get_exchange_rates, h]
  · intro keys h
    simp [get_exchange_rates, h]
  · intro keys p h hres
    simp [get_exchange_rates, h, hres]
  · intro keys p h hcr
    by_cases hres : p.result = some "success"
    · simp [get_exchange_rates, h, hres, hcr]
    · simp [get_exchange_rates, h, hres]
  · intro keys p table h hres hcr
    simp [get_exchange_rates, h, hres, hcr]

theorem exchange_rates_fail_open_witness :
    get_exchange_rates ⟨"", "", "", "", "", ""⟩ none = ([], false) ∧
    get_exchange_rates ⟨"", "", "", "", "", "RK"⟩ none = ([], true) ∧
    get_exchange_rates ⟨"", "", "", "", "", "RK"⟩
      (some ⟨some "error", some [("EUR", 2)]⟩) = ([], true) ∧
    get_exchange_rates ⟨"", "", "", "", "", "RK"⟩
      (some ⟨some "success", none⟩) = ([], true) ∧
    get_exchange_rates ⟨"", "", "", "", "", "RK"⟩
      (some ⟨some "success", some [("EUR", 2)]⟩) = ([("EUR", 2)], true) :=
  ⟨exchange_rates_fail_open.1 ⟨"", "", "", "", "", ""⟩ none rfl,
   exchange_rates_fail_open.2.1 ⟨"", "", "", "", "", "RK"⟩ (by decide),
   exchange_rates_fail_open.2.2.1 ⟨"", "", "", "", "", "RK"⟩
     ⟨some "error", some [("EUR", 2)]⟩ (by decide) (by decide),
   exchange_rates_fail_open.2.2.2.1 ⟨"", "", "", "", "", "RK"⟩
     ⟨some "success", none⟩ (by decide) rfl,
   exchange_rates_fail_open.2.2.2.2 ⟨"", "", "", "", "", "RK"⟩
     ⟨some "success", some [("EUR", 2)]⟩ [("EUR", 2)] (by decide) rfl rfl⟩

/-- C10: any condition value other than exactly New and exactly
Used/Refurbished — Any included — produces an empty condition-filter
expression, hence the identical eBay request URL and an identical search
call with no condition restriction. -/
theorem ebay_filter_default_empty :
    (∀ cond : String, cond ≠ "New" → cond ≠ "Used/Refurbished" →
        filter_str cond = "") ∧
    (∀ (cond q : String), cond ≠ "New" → cond ≠ "Used/Refurbished" →
        ebay_search_url q cond = ebay_search_url q "Any") ∧
    (∀ (keys : ApiKeys) (rates : RateTable) (target : String)
        (tokenApi : Option String) (itemsApi : String → Option (List EbayItem))
        (q cond : String), cond ≠ "New" → cond ≠ "Used/Refurbished" →
        search_ebay_ecom keys rates target tokenApi itemsApi q cond
          = search_ebay_ecom keys rates target tokenApi itemsApi q "Any") ∧
    filter_str "Any" = "" := by
  have hfs : ∀ cond : String, cond ≠ "New" → cond ≠ "Used/Refurbished" →
      filter_str cond = "" := by
    intro cond h1 h2
    simp [filter_str, h1, h2]
  have hurl : ∀ (cond q : String), cond ≠ "New" → cond ≠ "Used/Refurbished" →
      ebay_search_url q cond = ebay_search_url q "Any" := by
    intro cond q h1 h2
    unfold ebay_search_url
    rw [hfs cond h1 h2]
    rfl
  refine ⟨hfs, hurl, ?_, rfl⟩
  intro keys rates target tokenApi itemsApi q cond h1 h2
  unfold search_ebay_ecom
  rw [hurl cond (nlp_clean_query q) h1 h2]

theorem ebay_filter_default_empty_witness :
    filter_str "Sample" = "" ∧
    ebay_search_url "ipad" "Sample" = ebay_search_url "ipad" "Any" ∧
    search_ebay_ecom ⟨"", "", "", "", "", ""⟩ [] "USD" none (fun _ => none)
        "q" "Sample"
      = search_ebay_ecom ⟨"", "", "", "", "", ""⟩ [] "USD" none (fun _ => none)
        "q" "Any" :=
  ⟨ebay_filter_default_empty.1 "Sample" (by decide) (by decide),
   ebay_filter_default_empty.2.1 "Sample" "ipad" (by decide) (by decide),
   ebay_filter_default_empty.2.2.1 ⟨"", "", "", "", "", ""⟩ [] "USD" none
     (fun _ => none) "q" "Sample" (by decide) (by decide)⟩
